import Mathlib

/-!
Shallow embedding of the core of `cargo-wasix` (toolchain provisioning,
build-event processing, artifact post-processing) and proofs about it.

Each definition mirrors one function of the Rust sources:
  * `src/lib.rs`       — orchestration, build-event fold, post-processing
  * `src/toolchain.rs` — toolchain resolver
  * `src/utils.rs`     — process-error handling, advisory lock
External effects (child processes, the network, serde decoding, the real
filesystem) are modelled as explicit parameters.
-/

namespace CargoWasix

/-! ### Data model (src/lib.rs: `Profile`, `ManifestConfig`, `CargoMessage`, `CargoBuild`) -/

/-- `Profile` from src/lib.rs: optimization level, optional debuginfo level,
test flag. -/
structure Profile where
  opt_level : String
  debuginfo : Option Nat
  test : Bool
deriving DecidableEq, Repr

/-- `ManifestConfig` from src/lib.rs: the three optional booleans read from
`Cargo.toml` package metadata. -/
structure ManifestConfig where
  wasm_opt : Option Bool
  wasm_name_section : Option Bool
  wasm_producers_section : Option Bool
deriving DecidableEq, Repr

/-- `CargoMessage` from src/lib.rs: the tagged build-event records. -/
inductive CargoMessage where
  | compilerArtifact (filenames : List String) (package_id : String)
      (profile : Profile) (fresh : Bool)
  | buildScriptExecuted
  | runWithArgs (args : List String)
  | buildFinished
deriving DecidableEq, Repr

/-- `CargoBuild` from src/lib.rs: the aggregate build result. -/
structure CargoBuild where
  wasm_bindgen : Option String := none
  wasms : List (String × Profile × Bool) := []
  runs : List (List String) := []
  manifest_config : ManifestConfig := ⟨none, none, none⟩
deriving DecidableEq, Repr

/-! ### Path helpers (mirroring Rust `Path::file_name`, `Path::extension`,
`Path::with_extension` as used on the artifact paths) -/

/-- Split a character list at every occurrence of the separator (the
single-character case of `str::split`); like `String.splitOn`, adjacent
separators produce empty pieces. -/
def splitOnChar (sep : Char) : List Char → List (List Char)
  | [] => [[]]
  | c :: cs =>
    let r := splitOnChar sep cs
    if c == sep then [] :: r
    else
      match r with
      | [] => [[c]]
      | piece :: rest => (c :: piece) :: rest

/-- `splitOnChar` lifted to strings. -/
def splitStr (sep : Char) (s : String) : List String :=
  (splitOnChar sep s.data).map (fun l => ⟨l⟩)

/-- Final path component, as Rust `Path::file_name` on the paths produced by
cargo (no trailing separators). -/
def fileName (p : String) : String :=
  (splitStr '/' p).getLastD ""

/-- Extension of a file name, as Rust `Path::extension`: the portion of the
file name after the last dot, `none` when there is no dot or the only dot is
the leading one of a hidden file. -/
def extensionOfName (name : String) : Option String :=
  match splitStr '.' name with
  | [] => none
  | [_] => none
  | "" :: rest => if rest.length == 1 then none else rest.getLast?
  | parts => parts.getLast?

/-- Extension of a path, looking only at its final component. -/
def pathExtension (p : String) : Option String :=
  extensionOfName (fileName p)

/-- Rust `Path::with_extension`: replace (or append) the extension of the
final component. -/
def withExtension (p ext : String) : String :=
  let base :=
    match pathExtension p with
    | none => p
    | some e => ⟨p.data.take (p.data.length - (e.data.length + 1))⟩
  if ext.data.isEmpty then base else base ++ "." ++ ext

/-- Rust `str::split_whitespace`: the maximal non-whitespace runs of a
string (no empty pieces). The accumulator carries the current run
reversed. -/
def splitWsAux : List Char → List Char → List String
  | [], acc => if acc.isEmpty then [] else [⟨acc.reverse⟩]
  | c :: cs, acc =>
    if c.isWhitespace then
      if acc.isEmpty then splitWsAux cs []
      else (⟨acc.reverse⟩ : String) :: splitWsAux cs []
    else splitWsAux cs (c :: acc)

/-- Rust `str::split_whitespace` on a string. -/
def splitWhitespaceStr (s : String) : List String :=
  splitWsAux s.data []

/-! ### Section-inclusion policy
(src/lib.rs: `CargoBuild::enable_name_section`,
`CargoBuild::enable_producers_section`, `process_wasm` module config) -/

/-- `CargoBuild::enable_name_section` from src/lib.rs. -/
def CargoBuild.enable_name_section (b : CargoBuild) (profile : Profile) : Bool :=
  profile.debuginfo.isSome || b.manifest_config.wasm_name_section.getD true

/-- `CargoBuild::enable_producers_section` from src/lib.rs. -/
def CargoBuild.enable_producers_section (b : CargoBuild) (profile : Profile) : Bool :=
  profile.debuginfo.isSome || b.manifest_config.wasm_producers_section.getD true

/-- The three walrus `ModuleConfig` inclusion flags as set by `process_wasm`
in src/lib.rs. -/
structure ModuleFlags where
  generate_dwarf : Bool
  generate_name_section : Bool
  generate_producers_section : Bool
deriving DecidableEq, Repr

/-- The inclusion flags `process_wasm` (src/lib.rs) passes to the module
parser: dwarf iff debuginfo, name/producers via the two policy helpers. -/
def processWasmFlags (profile : Profile) (b : CargoBuild) : ModuleFlags :=
  { generate_dwarf := profile.debuginfo.isSome
  , generate_name_section := b.enable_name_section profile
  , generate_producers_section := b.enable_producers_section profile }

/-! ### Optimizer invocation (src/lib.rs: `run_wasm_opt`) -/

/-- Outcome of `run_wasm_opt` (src/lib.rs): either write the bytes out
unoptimized, or invoke `wasm-opt` with the given argument list. -/
inductive WasmOptAction where
  | skip
  | run (args : List String)
deriving DecidableEq, Repr

/-- The decision and command line built by `run_wasm_opt` in src/lib.rs.
`input` is the temporary input file path, `wasmOut` the output path. -/
def run_wasm_opt_plan (input wasmOut : String) (profile : Profile)
    (b : CargoBuild) : WasmOptAction :=
  if profile.debuginfo.isSome || profile.opt_level == "0" then .skip
  else if b.manifest_config.wasm_opt == some false then .skip
  else
    .run ([input, "-O" ++ profile.opt_level, "-o", wasmOut,
           "--strip-producers", "--asyncify"] ++
          (if b.enable_name_section profile then ["--debuginfo"]
           else ["--strip-debug"]))

/-! ### Runner shim (src/lib.rs: `main`) -/

/-- Observable outcome of one invocation of the `cargo-wasix` executable. -/
structure MainResult where
  events : List CargoMessage
  exit_code : Nat
  orchestrated : Bool
deriving DecidableEq, Repr

/-- `main` from src/lib.rs: when the `__CARGO_WASIX_RUNNER_SHIM` marker is in
the environment, print one `RunWithArgs` record for the arguments after the
program name and return (exit 0); otherwise run `rmain` (abstracted as
`rmainResult`) and exit 0 or 1. -/
def mainEntry (shimMarkerSet : Bool) (argv : List String)
    (rmainResult : Except Unit Unit) : MainResult :=
  if shimMarkerSet then
    { events := [CargoMessage.runWithArgs (argv.drop 1)]
    , exit_code := 0
    , orchestrated := false }
  else
    match rmainResult with
    | .ok _ => { events := [], exit_code := 0, orchestrated := true }
    | .error _ => { events := [], exit_code := 1, orchestrated := true }

/-! ### Process errors and the hidden-exit heuristic
(src/utils.rs: `ProcessError`, `hide_normal_process_exit`,
`normal_process_exit_code`) -/

/-- `ProcessError` from src/utils.rs (the command description string is
irrelevant to the control flow and omitted). `check_success` always
constructs it with `hidden = false`. -/
structure ProcessError where
  code : Option Int
  stdout : List Nat
  stderr : List Nat
  hidden : Bool
deriving DecidableEq, Repr

/-- An `anyhow::Error` as far as the hidden-exit logic can see it: either it
downcasts to a `ProcessError` or it does not. -/
inductive AppError where
  | process (e : ProcessError)
  | other
deriving DecidableEq, Repr

/-- `hide_normal_process_exit` from src/utils.rs: in non-verbose mode, mark a
`ProcessError` hidden when its exit code exists, lies in `[0, 128)`, and both
captured streams are empty; any other error is returned unchanged. -/
def hide_normal_process_exit (verbose : Bool) (err : AppError) : AppError :=
  if verbose then err
  else
    match err with
    | .other => .other
    | .process e =>
      match e.code with
      | some code =>
        if 0 ≤ code ∧ code < 128 ∧ e.stdout = [] ∧ e.stderr = [] then
          .process { e with hidden := true }
        else .process e
      | none => .process e

/-- `normal_process_exit_code` from src/utils.rs: the exit code of an error
that was marked hidden, `none` otherwise. -/
def normal_process_exit_code (err : AppError) : Option Int :=
  match err with
  | .process e => if e.hidden then e.code else none
  | .other => none

/-- Whether an error is currently marked hidden. -/
def errorHidden : AppError → Bool
  | .process e => e.hidden
  | .other => false

/-- Modelled from the spec: the top-level error handler (`Config::print_error`
in `config.rs`, which is not among the provided sources) "prints the final
contextualized message and exits 1, except where a ProcessError's own code
should be propagated verbatim per the hidden-exit rule". -/
def top_level_exit_code (err : AppError) : Int :=
  match normal_process_exit_code err with
  | some code => code
  | none => 1

/-! ### Shared-cache download (src/lib.rs: `download`; src/utils.rs: `flock`) -/

/-- `download` from src/lib.rs, with the external world abstracted:
`lock_result` is the outcome of `utils::flock` (bound to `_flock` and never
inspected), `sub_paths_present` records, per expected sub-path, whether
`parent.join(sub_path)` already exists, and `fetch_extract` is the outcome of
the HTTP fetch plus tarball extraction and the final completeness check.
Returns whether a download was actually performed. -/
def download_tool (lock_result : Except String Unit)
    (sub_paths_present : List Bool)
    (fetch_extract : Except String Unit) : Except String Bool :=
  let _flock := lock_result
  if sub_paths_present.all (fun b => b) then .ok false
  else
    match fetch_extract with
    | .ok _ => .ok true
    | .error e => .error e

/-! ### Generic acquire-and-retry (src/lib.rs: `run_or_download`) -/

/-- What the `err.chain()` scan in `run_or_download` can see for one element
of the error chain: an `io::Error` of some kind, or a non-io error. -/
inductive IoKind where
  | notFound
  | permissionDenied
  | otherIo
deriving DecidableEq, Repr

/-- A failed command execution, represented by the downcast results of its
error chain (`none` for chain elements that are not `io::Error`). -/
structure CmdError where
  chain : List (Option IoKind)
deriving DecidableEq, Repr

/-- The `err.chain().any(..)` test in `run_or_download` (src/lib.rs): retry
after a download iff some chain element is an `io::Error` of kind `NotFound`
or `PermissionDenied`. -/
def rerun_after_download (e : CmdError) : Bool :=
  e.chain.any (fun k => k == some .notFound || k == some .permissionDenied)

/-- Error returned by `run_or_download`: a command failure or a download
failure. -/
inductive RunOrDlError where
  | cmd (e : CmdError)
  | dl (msg : String)
deriving DecidableEq, Repr

deriving instance DecidableEq for Except

/-- Observable outcome of `run_or_download`: its result plus how many
download attempts and how many command runs were performed. -/
structure RunStats where
  result : Except RunOrDlError Unit
  downloads : Nat
  runs : Nat
deriving DecidableEq, Repr

/-- `run_or_download` from src/lib.rs, with the two possible command runs and
the download abstracted as outcomes: run once; on failure, if the error chain
shows `NotFound`/`PermissionDenied` and the tool is not an explicit override,
download and retry exactly once; otherwise surface the error. -/
def run_or_download (is_overridden : Bool)
    (firstRun : Except CmdError Unit)
    (downloadResult : Except String Unit)
    (secondRun : Except CmdError Unit) : RunStats :=
  match firstRun with
  | .ok _ => ⟨.ok (), 0, 1⟩
  | .error err =>
    if !(rerun_after_download err) || is_overridden then
      ⟨.error (.cmd err), 0, 1⟩
    else
      match downloadResult with
      | .error d => ⟨.error (.dl d), 1, 1⟩
      | .ok _ =>
        match secondRun with
        | .ok _ => ⟨.ok (), 1, 2⟩
        | .error e2 => ⟨.error (.cmd e2), 1, 2⟩

/-! ### Toolchain resolver (src/toolchain.rs: `install_prebuilt_toolchain`,
`ensure_toolchain`) -/

/-- `RustupToolchain` from src/toolchain.rs. -/
structure RustupToolchain where
  name : String
  path : String
deriving DecidableEq, Repr

/-- Failure cases of the resolver, one per `bail!`/error path in
src/toolchain.rs (`assert_eq!(toolchain.path, rust_sysroot)` aborts, modelled
as the `sysrootMismatch` failure). -/
inductive ToolchainError where
  | offlineNotInstalled
  | noPrebuiltForPlatform
  | downloadFailed (msg : String)
  | linkFailed (msg : String)
  | rustcExecFailed
  | sysrootMismatch (path sysroot : String)
  | libDirMissing (dir : String)
deriving DecidableEq, Repr

/-- External outcomes consumed by `install_prebuilt_toolchain`
(src/toolchain.rs): the host-target guess, the result of
`download_toolchain` (the toolchain directory on success), and the result of
`RustupToolchain::link` on that directory. -/
structure PrebuiltEnv where
  host_target : Option String
  download_result : Except String String
  link_result : Except String RustupToolchain
deriving DecidableEq, Repr

/-- `install_prebuilt_toolchain` from src/toolchain.rs: if the host target is
known, download the prebuilt toolchain and link it; a download failure is
returned as an error (with added context), as is an unknown host platform. -/
def install_prebuilt_toolchain (env : PrebuiltEnv) :
    Except ToolchainError RustupToolchain :=
  match env.host_target with
  | some _ =>
    match env.download_result with
    | .ok _ =>
      match env.link_result with
      | .ok t => .ok t
      | .error m => .error (.linkFailed m)
    | .error m => .error (.downloadFailed m)
  | none => .error .noPrebuiltForPlatform

/-- The acquisition steps the resolver can perform, for tracing which path
`ensure_toolchain` took. `buildFromSource` is only ever performed by the
separate `build_toolchain` entry point, never by the resolver. -/
inductive ResolverAction where
  | acquirePrebuilt
  | buildFromSource
  | validate
deriving DecidableEq, Repr

/-- The per-width library subdirectory checked by `ensure_toolchain`. -/
def lib_name (is64bit : Bool) : String :=
  if is64bit then "lib/rustlib/wasm64-wasmer-wasi"
  else "lib/rustlib/wasm32-wasmer-wasi"

/-- Rust `str::trim` (drop leading and trailing whitespace), implemented
structurally over the character list. -/
def trimWs (s : String) : String :=
  ⟨((s.data.dropWhile Char.isWhitespace).reverse.dropWhile
      Char.isWhitespace).reverse⟩

/-- The external world consumed by `ensure_toolchain` (src/toolchain.rs):
the result of `RustupToolchain::find_by_name`, the offline flag, the inputs
of `install_prebuilt_toolchain`, the stdout of
`rustc +wasix --print sysroot` (or its failure), and filesystem existence for
the library directory check. -/
structure ToolchainWorld where
  registered : Option RustupToolchain
  is_offline : Bool
  prebuilt : PrebuiltEnv
  sysroot_query : Except String String
  lib_dir_exists : String → Bool

/-- The acquisition block of `ensure_toolchain` (src/toolchain.rs): use the
registered toolchain if present; otherwise, when online, install the prebuilt
toolchain (propagating any failure with `?` — there is no fallback to a
source build), and when offline, fail. -/
def resolve_toolchain (w : ToolchainWorld) :
    Except ToolchainError RustupToolchain × List ResolverAction :=
  match w.registered with
  | some chain => (.ok chain, [])
  | none =>
    if !w.is_offline then
      (install_prebuilt_toolchain w.prebuilt, [.acquirePrebuilt])
    else
      (.error .offlineNotInstalled, [])

/-- The sanity-check block of `ensure_toolchain` (src/toolchain.rs):
query `rustc +wasix --print sysroot`, require it to equal the registered
path (`assert_eq!`), and require the per-width library subdirectory to
exist. -/
def validate_toolchain (w : ToolchainWorld) (is64bit : Bool)
    (chain : RustupToolchain) : Except ToolchainError RustupToolchain :=
  match w.sysroot_query with
  | .error _ => .error .rustcExecFailed
  | .ok out =>
    let rust_sysroot := trimWs out
    if chain.path ≠ rust_sysroot then
      .error (.sysrootMismatch chain.path rust_sysroot)
    else
      let lib_dir := rust_sysroot ++ "/" ++ lib_name is64bit
      if !(w.lib_dir_exists lib_dir) then
        .error (.libDirMissing lib_dir)
      else
        .ok chain

/-- `ensure_toolchain` from src/toolchain.rs, returning its result together
with the trace of acquisition/validation steps performed. -/
def ensure_toolchain (w : ToolchainWorld) (is64bit : Bool) :
    Except ToolchainError RustupToolchain × List ResolverAction :=
  match resolve_toolchain w with
  | (.error e, acts) => (.error e, acts)
  | (.ok chain, acts) =>
    (validate_toolchain w is64bit chain, acts ++ [.validate])

/-! ### Build-event stream fold (src/lib.rs: `execute_cargo`) -/

/-- The fatal decode failure in `execute_cargo` (src/lib.rs):
`bail!("failed to parse {}: {}", line, e)`. -/
structure ParseFail where
  line : String
  msg : String
deriving DecidableEq, Repr

/-- How one decoded `CargoMessage` is folded into the `CargoBuild` aggregate
by the loop body of `execute_cargo` (src/lib.rs): artifact records have their
`package_id` scanned for a `wasm-bindgen` version and their filenames
filtered to the `wasm` extension; run records append their argument list;
script/finished records are ignored. -/
def foldMessage (b : CargoBuild) (m : CargoMessage) : CargoBuild :=
  match m with
  | .compilerArtifact filenames package_id profile fresh =>
    let words := splitWhitespaceStr package_id
    let b :=
      match words with
      | "wasm-bindgen" :: version :: _ => { b with wasm_bindgen := some version }
      | _ => b
    { b with
      wasms := b.wasms ++
        (filenames.filter (fun f => pathExtension f == some "wasm")).map
          (fun f => (f, profile, fresh)) }
  | .runWithArgs args => { b with runs := b.runs ++ [args] }
  | .buildScriptExecuted => b
  | .buildFinished => b

/-- The structured-record marker test from `execute_cargo` (src/lib.rs):
`line.starts_with('\x7b')`. -/
def isMarkerLine (line : String) : Bool :=
  match line.data with
  | [] => false
  | c :: _ => c == '\x7b'

/-- The line loop of `execute_cargo` (src/lib.rs), with serde decoding
abstracted as `decode`: returns the final fold result (or the fatal decode
failure, which aborts the loop) together with the lines echoed verbatim.
Lines not starting with the marker are echoed and do not touch the
aggregate. -/
def processLines (decode : String → Except String CargoMessage)
    (b : CargoBuild) : List String → Except ParseFail CargoBuild × List String
  | [] => (.ok b, [])
  | line :: rest =>
    if isMarkerLine line then
      match decode line with
      | .ok m => processLines decode (foldMessage b m) rest
      | .error e => (.error ⟨line, e⟩, [])
    else
      let next := processLines decode b rest
      (next.1, line :: next.2)

/-- The full fold performed by `execute_cargo` (src/lib.rs), starting from
the default `CargoBuild`. -/
def execute_cargo_fold (decode : String → Except String CargoMessage)
    (lines : List String) : Except ParseFail CargoBuild × List String :=
  processLines decode {} lines

/-! ### Artifact post-processing step (src/lib.rs: the per-artifact loop in
`rmain`) -/

/-- File contents. -/
abbrev Bytes := List Nat

/-- A filesystem snapshot: an association of paths to contents. -/
abbrev FS := List (String × Bytes)

/-- Contents at a path, if the file exists. -/
def fsLookup (fs : FS) (p : String) : Option Bytes :=
  (fs.find? (fun e => e.1 == p)).map (fun e => e.2)

/-- `Path::exists`. -/
def fsExists (fs : FS) (p : String) : Bool :=
  (fsLookup fs p).isSome

/-- `fs::remove_file` (with the result dropped, as in the source). -/
def fsRemove (fs : FS) (p : String) : FS :=
  fs.filter (fun e => !(e.1 == p))

/-- Create or overwrite a file. -/
def fsInsert (fs : FS) (p : String) (c : Bytes) : FS :=
  (p, c) :: fsRemove fs p

/-- `fs::rename`: fails when the source does not exist. -/
def fsRename (fs : FS) (src dst : String) : Option FS :=
  match fsLookup fs src with
  | none => none
  | some c => some (fsInsert (fsRemove fs src) dst c)

/-- Failure cases of the per-artifact loop body in `rmain` (src/lib.rs). -/
inductive PostErr where
  | renameFailed
  | processFailed
  | linkFailed
deriving DecidableEq, Repr

/-- The middle of the per-artifact loop body in `rmain` (src/lib.rs):
`if !*fresh || !temporary_wasi.exists() { process_wasm(..)? }` — run
`process_wasm` (abstracted as `process`, reading the raw staged bytes and
writing `*.wasi.wasm`) unless the artifact is fresh and a finalized staging
file already exists. Returns the filesystem and whether `process_wasm` was
invoked. -/
def stage_fresh_check (process : Bytes → Option Bytes) (fs2 : FS)
    (wasm : String) (fresh : Bool) : Except PostErr (FS × Bool) :=
  if !fresh || !(fsExists fs2 (withExtension wasm "wasi.wasm")) then
    match fsLookup fs2 (withExtension wasm "rustc.wasm") with
    | none => .error .processFailed
    | some raw =>
      match process raw with
      | none => .error .processFailed
      | some outBytes =>
        .ok (fsInsert fs2 (withExtension wasm "wasi.wasm") outBytes, true)
  else .ok (fs2, false)

/-- The tail of the per-artifact loop body in `rmain` (src/lib.rs):
`drop(fs::remove_file(wasm)); fs::hard_link(&temporary_wasi, wasm)` falling
back to copy — either way the conventional path ends up with the finalized
staging file's bytes. -/
def stage_link_back (fs3 : FS) (wasm : String) (invoked : Bool) :
    Except PostErr (FS × Bool) :=
  match fsLookup (fsRemove fs3 wasm) (withExtension wasm "wasi.wasm") with
  | none => .error .linkFailed
  | some c => .ok (fsInsert (fsRemove fs3 wasm) wasm c, invoked)

/-- The body of the per-artifact loop in `rmain` (src/lib.rs), for one
`(wasm, profile, fresh)` entry: remove then rename the conventional path
aside to `*.rustc.wasm` (unconditionally, even on a freshness hit); then the
freshness-gated `process_wasm` stage; then link the finalized file back onto
the conventional path. -/
def postprocessArtifact (process : Bytes → Option Bytes)
    (fs : FS) (wasm : String) (fresh : Bool) : Except PostErr (FS × Bool) :=
  match fsRename (fsRemove fs (withExtension wasm "rustc.wasm")) wasm
      (withExtension wasm "rustc.wasm") with
  | none => .error .renameFailed
  | some fs2 =>
    match stage_fresh_check process fs2 wasm fresh with
    | .error e => .error e
    | .ok (fs3, invoked) => stage_link_back fs3 wasm invoked

/-! ## Theorems -/

/-- C2: when the private runner-shim marker is present in the environment,
`main` performs no orchestration work: it emits exactly one `RunWithArgs`
event naming exactly the arguments after the program name, and exits with
code zero immediately. -/
theorem runner_shim_emits_single_deferred_run
    (argv : List String) (rmainResult : Except Unit Unit) :
    mainEntry true argv rmainResult =
      { events := [CargoMessage.runWithArgs (argv.drop 1)]
      , exit_code := 0
      , orchestrated := false } := rfl

/-- C7: the name section is kept iff the profile has debug info or the
manifest keep-name-section flag is not explicitly `false`; the producers
section follows the identical rule with its own flag; debug (dwarf) sections
are kept iff the profile has debug info. -/
theorem section_inclusion_policy (profile : Profile) (b : CargoBuild) :
    ((processWasmFlags profile b).generate_name_section = true ↔
      (profile.debuginfo.isSome = true ∨
        b.manifest_config.wasm_name_section ≠ some false)) ∧
    ((processWasmFlags profile b).generate_producers_section = true ↔
      (profile.debuginfo.isSome = true ∨
        b.manifest_config.wasm_producers_section ≠ some false)) ∧
    ((processWasmFlags profile b).generate_dwarf = true ↔
      profile.debuginfo.isSome = true) := by
  obtain ⟨wb, ws, rs, mo, mn, mp⟩ := b
  refine ⟨?_, ?_, Iff.rfl⟩ <;>
    simp only [processWasmFlags, CargoBuild.enable_name_section,
      CargoBuild.enable_producers_section] <;>
    rcases mn with _ | _ | _ <;> rcases mp with _ | _ | _ <;>
    simp [Option.getD]

/-- C6: the optimizer pass is skipped iff the profile has debug info, or its
optimization level is `"0"`, or the manifest run-optimizer flag is explicitly
`false`; otherwise `wasm-opt` is invoked with the profile's `-O` level flag,
`--strip-producers`, `--asyncify`, and `--debuginfo` when the name-section
decision is true or `--strip-debug` when it is false. -/
theorem wasm_opt_invocation_policy (input wasmOut : String)
    (profile : Profile) (b : CargoBuild) :
    (run_wasm_opt_plan input wasmOut profile b = .skip ↔
      (profile.debuginfo.isSome = true ∨ profile.opt_level = "0" ∨
        b.manifest_config.wasm_opt = some false)) ∧
    (run_wasm_opt_plan input wasmOut profile b ≠ .skip →
      run_wasm_opt_plan input wasmOut profile b =
        .run ([input, "-O" ++ profile.opt_level, "-o", wasmOut,
               "--strip-producers", "--asyncify"] ++
              (if b.enable_name_section profile then ["--debuginfo"]
               else ["--strip-debug"]))) := by
  by_cases h1 : profile.debuginfo.isSome = true <;>
    by_cases h2 : profile.opt_level = "0" <;>
    by_cases h3 : b.manifest_config.wasm_opt = some false <;>
    simp [run_wasm_opt_plan, h1, h2, h3]

/-- C6 witness: a profile with optimizations and no debug info leads to a
`wasm-opt` invocation with the expected flags. -/
theorem wasm_opt_invocation_policy_witness :
    run_wasm_opt_plan "input.wasm" "out.wasm" ⟨"3", none, false⟩ {} ≠ .skip ∧
    run_wasm_opt_plan "input.wasm" "out.wasm" ⟨"3", none, false⟩ {} =
      .run ["input.wasm", "-O3", "-o", "out.wasm", "--strip-producers",
            "--asyncify", "--debuginfo"] := by
  have h := wasm_opt_invocation_policy "input.wasm" "out.wasm"
    ⟨"3", none, false⟩ {}
  refine ⟨?_, ?_⟩
  · intro hc
    have := h.1.mp hc
    simp at this
  · have hne : run_wasm_opt_plan "input.wasm" "out.wasm"
        ⟨"3", none, false⟩ {} ≠ .skip := by
      intro hc
      have := h.1.mp hc
      simp at this
    simpa using h.2 hne

/-- C9: a child-process failure is marked as a normal hidden exit iff verbose
mode is off, the exit code exists and lies in `[0, 128)`, and both captured
streams are empty; a hidden error's own exit code becomes the tool's exit
code, every other reported failure exits with code 1. -/
theorem hidden_exit_policy (verbose : Bool) (e : ProcessError)
    (h : e.hidden = false) :
    (errorHidden (hide_normal_process_exit verbose (.process e)) = true ↔
      (verbose = false ∧ ∃ c, e.code = some c ∧ 0 ≤ c ∧ c < 128 ∧
        e.stdout = [] ∧ e.stderr = [])) ∧
    (∀ c, e.code = some c →
      errorHidden (hide_normal_process_exit verbose (.process e)) = true →
      top_level_exit_code (hide_normal_process_exit verbose (.process e)) = c) ∧
    (errorHidden (hide_normal_process_exit verbose (.process e)) = false →
      top_level_exit_code (hide_normal_process_exit verbose (.process e)) = 1) ∧
    top_level_exit_code (hide_normal_process_exit verbose .other) = 1 := by
  obtain ⟨code, out, errs, hid⟩ := e
  simp only at h
  subst h
  cases verbose with
  | true =>
    simp [hide_normal_process_exit, errorHidden, top_level_exit_code,
      normal_process_exit_code]
  | false =>
    cases code with
    | none =>
      simp [hide_normal_process_exit, errorHidden, top_level_exit_code,
        normal_process_exit_code]
    | some c =>
      by_cases hc : 0 ≤ c ∧ c < 128 ∧ out = [] ∧ errs = [] <;>
        simp only [hide_normal_process_exit, if_pos, if_neg, hc] <;>
        simp [errorHidden, top_level_exit_code, normal_process_exit_code] <;>
        tauto

/-- C9 witness: a quiet exit with code 42 is hidden and propagated as exit
code 42. -/
theorem hidden_exit_policy_witness :
    errorHidden (hide_normal_process_exit false
      (.process ⟨some 42, [], [], false⟩)) = true ∧
    top_level_exit_code (hide_normal_process_exit false
      (.process ⟨some 42, [], [], false⟩)) = 42 := by
  have h := hidden_exit_policy false ⟨some 42, [], [], false⟩ rfl
  refine ⟨?_, ?_⟩
  · exact h.1.mpr ⟨rfl, 42, rfl, by decide, by decide, rfl, rfl⟩
  · exact h.2.1 42 rfl (h.1.mpr ⟨rfl, 42, rfl, by decide, by decide, rfl, rfl⟩)

/-- C10: in the shared-cache download, a failure to acquire the advisory lock
is silently ignored — the operation behaves identically for any lock outcome,
and any failure of the operation comes from the fetch/extract itself. -/
theorem download_lock_failure_ignored (lock1 lock2 : Except String Unit)
    (sub_paths_present : List Bool) (fetch_extract : Except String Unit) :
    download_tool lock1 sub_paths_present fetch_extract =
      download_tool lock2 sub_paths_present fetch_extract ∧
    (∀ m e, download_tool (.error m) sub_paths_present fetch_extract =
        .error e → fetch_extract = .error e) := by
  constructor
  · rfl
  · intro m e h
    unfold download_tool at h
    split at h
    · exact absurd h (by simp)
    · cases fetch_extract with
      | ok _ => simp at h
      | error fe => simpa using h

/-- C10 witness: with a failed lock and all sub-paths present, the download
still reports success (no lock-induced failure). -/
theorem download_lock_failure_ignored_witness :
    download_tool (.error "lock failed") [true, true] (.error "net down") =
      download_tool (.ok ()) [true, true] (.error "net down") ∧
    (download_tool (.error "lock failed") [true, false] (.ok ()) = .ok true) := by
  have h := download_lock_failure_ignored (.error "lock failed") (.ok ())
    [true, true] (.error "net down")
  exact ⟨h.1, rfl⟩

/-- C3: with an explicit override the command runs exactly once, zero
acquisitions, failure surfaced verbatim; without an override, a first-run
failure whose chain shows not-found/permission-denied triggers exactly one
acquisition and one retry (and the retried outcome is surfaced); any other
failure is surfaced directly with no acquisition; a first-run success
performs no acquisition. -/
theorem run_or_download_policy
    (firstRun : Except CmdError Unit) (dl : Except String Unit)
    (secondRun : Except CmdError Unit) :
    ((run_or_download true firstRun dl secondRun).downloads = 0 ∧
     (run_or_download true firstRun dl secondRun).runs = 1 ∧
     (∀ e, firstRun = .error e →
       (run_or_download true firstRun dl secondRun).result =
         .error (.cmd e))) ∧
    (∀ e, firstRun = .error e → rerun_after_download e = true →
      (run_or_download false firstRun dl secondRun).downloads = 1 ∧
      (dl = .ok () →
        (run_or_download false firstRun dl secondRun).runs = 2 ∧
        (∀ e2, secondRun = .error e2 →
          (run_or_download false firstRun dl secondRun).result =
            .error (.cmd e2)) ∧
        (secondRun = .ok () →
          (run_or_download false firstRun dl secondRun).result = .ok ()))) ∧
    (∀ e, firstRun = .error e → rerun_after_download e = false →
      run_or_download false firstRun dl secondRun = ⟨.error (.cmd e), 0, 1⟩) ∧
    (firstRun = .ok () → ∀ ov,
      run_or_download ov firstRun dl secondRun = ⟨.ok (), 0, 1⟩) := by
  refine ⟨⟨?_, ?_, ?_⟩, ?_, ?_, ?_⟩
  · cases firstRun with
    | ok u => rfl
    | error e => simp [run_or_download]
  · cases firstRun with
    | ok u => rfl
    | error e => simp [run_or_download]
  · intro e he
    subst he
    simp [run_or_download]
  · intro e he hr
    subst he
    constructor
    · simp only [run_or_download, hr, Bool.not_true, Bool.false_or]
      cases dl with
      | ok u => cases secondRun <;> rfl
      | error d => rfl
    · intro hdl
      subst hdl
      refine ⟨?_, ?_, ?_⟩
      · simp only [run_or_download, hr, Bool.not_true, Bool.false_or]
        cases secondRun <;> rfl
      · intro e2 he2
        subst he2
        simp [run_or_download, hr]
      · intro hs
        subst hs
        simp [run_or_download, hr]
  · intro e he hr
    subst he
    simp [run_or_download, hr]
  · intro h ov
    subst h
    rfl

/-- C3 witness: a non-overridden tool whose first run fails with not-found
triggers exactly one acquisition and one retry, and an overridden one fails
with zero acquisitions. -/
theorem run_or_download_policy_witness :
    RunStats.downloads
      (run_or_download false (.error ⟨[some .notFound]⟩) (.ok ()) (.ok ())) = 1 ∧
    RunStats.runs
      (run_or_download false (.error ⟨[some .notFound]⟩) (.ok ()) (.ok ())) = 2 ∧
    (run_or_download true (.error ⟨[some .notFound]⟩) (.ok ()) (.ok ())) =
      ⟨.error (.cmd ⟨[some .notFound]⟩), 0, 1⟩ := by
  have h := run_or_download_policy (.error ⟨[some .notFound]⟩) (.ok ()) (.ok ())
  have hr : rerun_after_download ⟨[some .notFound]⟩ = true := by decide
  have h2 := h.2.1 ⟨[some .notFound]⟩ rfl hr
  refine ⟨h2.1, (h2.2 rfl).1, ?_⟩
  have h3 := h.1.2.2 ⟨[some .notFound]⟩ rfl
  have h4 := h.1.1
  have h5 := h.1.2.1
  have he : run_or_download true (.error ⟨[some .notFound]⟩) (.ok ()) (.ok ()) =
      ⟨RunStats.result (run_or_download true (.error ⟨[some .notFound]⟩)
          (.ok ()) (.ok ())),
       RunStats.downloads (run_or_download true (.error ⟨[some .notFound]⟩)
          (.ok ()) (.ok ())),
       RunStats.runs (run_or_download true (.error ⟨[some .notFound]⟩)
          (.ok ()) (.ok ()))⟩ := rfl
  rw [he, h3, h4, h5]

/-- A successful validation implies the toolchain invariant: the registered
path equals the trimmed sysroot output and the library directory exists. -/
theorem validate_toolchain_ok (w : ToolchainWorld) (is64bit : Bool)
    (chain c : RustupToolchain)
    (h : validate_toolchain w is64bit chain = .ok c) :
    c = chain ∧ ∃ out, w.sysroot_query = .ok out ∧
      chain.path = trimWs out ∧
      w.lib_dir_exists (chain.path ++ "/" ++ lib_name is64bit) = true := by
  unfold validate_toolchain at h
  split at h
  · exact absurd h (by simp)
  · next out hout =>
    by_cases hpath : chain.path = trimWs out
    · by_cases hlib : w.lib_dir_exists (trimWs out ++ "/" ++ lib_name is64bit) = true
      · simp [hpath, hlib] at h
        refine ⟨h.symm, out, hout, hpath, ?_⟩
        rw [hpath]
        exact hlib
      · simp only [Bool.not_eq_true] at hlib
        simp [hpath, hlib] at h
    · simp [hpath] at h

/-- C8: whenever the resolver returns a toolchain handle, the handle's
registered path is exactly the (trimmed) output of the `--print sysroot`
query and the requested width's library subdirectory exists under it; and
with no toolchain registered and the offline flag set it fails (with the
offline configuration error) without acquiring anything. -/
theorem ensure_toolchain_validates (w : ToolchainWorld) (is64bit : Bool) :
    (∀ chain acts, ensure_toolchain w is64bit = (.ok chain, acts) →
      ∃ out, w.sysroot_query = .ok out ∧ chain.path = trimWs out ∧
        w.lib_dir_exists (chain.path ++ "/" ++ lib_name is64bit) = true) ∧
    (w.registered = none → w.is_offline = true →
      ensure_toolchain w is64bit = (.error .offlineNotInstalled, [])) := by
  constructor
  · intro chain acts h
    unfold ensure_toolchain at h
    rcases hres : resolve_toolchain w with ⟨r, acts0⟩
    rw [hres] at h
    cases r with
    | error e => simp at h
    | ok chain0 =>
      simp only [Prod.mk.injEq] at h
      obtain ⟨hval, -⟩ := h
      obtain ⟨hc, out, hout, hpath, hlib⟩ :=
        validate_toolchain_ok w is64bit chain0 chain hval
      subst hc
      exact ⟨out, hout, hpath, hlib⟩
  · intro hreg hoff
    simp [ensure_toolchain, resolve_toolchain, hreg, hoff]

/-- C8 witness: a registered toolchain whose sysroot query matches and whose
library directory exists validates successfully, exposing the invariant. -/
theorem ensure_toolchain_validates_witness :
    ensure_toolchain
      { registered := some ⟨"wasix", "/r"⟩
      , is_offline := false
      , prebuilt := ⟨none, .error "", .error ""⟩
      , sysroot_query := .ok "/r\n"
      , lib_dir_exists := fun p => p == "/r/lib/rustlib/wasm32-wasmer-wasi" }
      false = (.ok ⟨"wasix", "/r"⟩, [.validate]) ∧
    (∃ out,
      (ToolchainWorld.sysroot_query
        { registered := some ⟨"wasix", "/r"⟩
        , is_offline := false
        , prebuilt := ⟨none, .error "", .error ""⟩
        , sysroot_query := .ok "/r\n"
        , lib_dir_exists := fun p => p == "/r/lib/rustlib/wasm32-wasmer-wasi" })
          = .ok out ∧
      RustupToolchain.path ⟨"wasix", "/r"⟩ = trimWs out) := by
  constructor
  · decide
  · have h := (ensure_toolchain_validates
      { registered := some ⟨"wasix", "/r"⟩
      , is_offline := false
      , prebuilt := ⟨none, .error "", .error ""⟩
      , sysroot_query := .ok "/r\n"
      , lib_dir_exists := fun p => p == "/r/lib/rustlib/wasm32-wasmer-wasi" }
      false).1 ⟨"wasix", "/r"⟩ [.validate] (by decide)
    obtain ⟨out, h1, h2, -⟩ := h
    exact ⟨out, h1, h2⟩

/-- C1 counterexample: with no toolchain registered, online, and a failing
prebuilt download, the resolver returns the error (fatal) — it performs no
build-from-source fallback and never reaches validation. -/
theorem prebuilt_failure_not_followed_by_source_build :
    ensure_toolchain
      { registered := none
      , is_offline := false
      , prebuilt := { host_target := some "x86_64-unknown-linux-gnu"
                    , download_result := .error "network unreachable"
                    , link_result := .error "unused" }
      , sysroot_query := .ok ""
      , lib_dir_exists := fun _ => true } false
      = (.error (.downloadFailed "network unreachable"),
         [.acquirePrebuilt]) ∧
    ResolverAction.buildFromSource ∉ [ResolverAction.acquirePrebuilt] ∧
    ResolverAction.validate ∉ [ResolverAction.acquirePrebuilt] := by
  refine ⟨by decide, by decide, by decide⟩

/-- C1 amended: with no toolchain registered and the offline flag not set, a
failure of prebuilt-toolchain acquisition is fatal — the resolver propagates
the acquisition error and does not fall back to building from source (nor
does it proceed to link or validate). -/
theorem prebuilt_failure_propagates (w : ToolchainWorld) (is64bit : Bool)
    (e : ToolchainError)
    (hreg : w.registered = none) (hoff : w.is_offline = false)
    (hpre : install_prebuilt_toolchain w.prebuilt = .error e) :
    ensure_toolchain w is64bit = (.error e, [.acquirePrebuilt]) ∧
    ResolverAction.buildFromSource ∉ (ensure_toolchain w is64bit).2 := by
  have hmain : ensure_toolchain w is64bit = (.error e, [.acquirePrebuilt]) := by
    simp [ensure_toolchain, resolve_toolchain, hreg, hoff, hpre]
  refine ⟨hmain, ?_⟩
  rw [hmain]
  show ResolverAction.buildFromSource ∉ [ResolverAction.acquirePrebuilt]
  decide

/-- C1 amended witness: a concrete online world with an unregistered
toolchain and failing download propagates the download error. -/
theorem prebuilt_failure_propagates_witness :
    ensure_toolchain
      { registered := none
      , is_offline := false
      , prebuilt := { host_target := some "aarch64-apple-darwin"
                    , download_result := .error "403"
                    , link_result := .ok ⟨"wasix", "/x"⟩ }
      , sysroot_query := .ok "/x"
      , lib_dir_exists := fun _ => true } true
      = (.error (.downloadFailed "403"), [.acquirePrebuilt]) :=
  (prebuilt_failure_propagates
    { registered := none
    , is_offline := false
    , prebuilt := { host_target := some "aarch64-apple-darwin"
                  , download_result := .error "403"
                  , link_result := .ok ⟨"wasix", "/x"⟩ }
    , sysroot_query := .ok "/x"
    , lib_dir_exists := fun _ => true } true
    (.downloadFailed "403") rfl rfl rfl).1

/-- On a successful fold, the echoed lines are exactly the non-marker lines,
dropping the non-marker lines does not change the resulting aggregate, and
every marker line decoded successfully. -/
theorem processLines_ok (decode : String → Except String CargoMessage) :
    ∀ (lines : List String) (b b' : CargoBuild) (ech : List String),
    processLines decode b lines = (.ok b', ech) →
    ech = lines.filter (fun l => !(isMarkerLine l)) ∧
    processLines decode b (lines.filter (fun l => isMarkerLine l)) =
      (.ok b', []) ∧
    (∀ l ∈ lines, isMarkerLine l = true → ∃ m, decode l = .ok m) := by
  intro lines
  induction lines with
  | nil =>
    intro b b' ech h
    simp only [processLines, Prod.mk.injEq, Except.ok.injEq] at h
    obtain ⟨hb, he⟩ := h
    subst hb
    subst he
    exact ⟨rfl, rfl, by simp⟩
  | cons line rest ih =>
    intro b b' ech h
    by_cases hm : isMarkerLine line = true
    · rcases hd : decode line with msg | m
      · simp [processLines, hm, hd] at h
      · simp only [processLines, hm, if_true, hd] at h
        obtain ⟨h1, h2, h3⟩ := ih (foldMessage b m) b' ech h
        refine ⟨?_, ?_, ?_⟩
        · rw [h1, List.filter_cons]
          simp [hm]
        · rw [List.filter_cons]
          simp only [hm, if_true]
          simpa [processLines, hm, hd] using h2
        · intro l hl hml
          rcases List.mem_cons.mp hl with rfl | hl'
          · exact ⟨m, hd⟩
          · exact h3 l hl' hml
    · have hstep : processLines decode b (line :: rest) =
          ((processLines decode b rest).1,
            line :: (processLines decode b rest).2) := by
        simp [processLines, hm]
      rw [hstep] at h
      simp only [Prod.mk.injEq] at h
      obtain ⟨hfst, hsnd⟩ := h
      have hrest : processLines decode b rest =
          (.ok b', (processLines decode b rest).2) := by
        conv_lhs => rw [show processLines decode b rest =
          ((processLines decode b rest).1,
            (processLines decode b rest).2) from rfl]
        rw [hfst]
      obtain ⟨h1, h2, h3⟩ := ih b b' (processLines decode b rest).2 hrest
      refine ⟨?_, ?_, ?_⟩
      · rw [← hsnd, h1, List.filter_cons]
        simp [hm]
      · rw [List.filter_cons]
        simpa [hm] using h2
      · intro l hl hml
        rcases List.mem_cons.mp hl with rfl | hl'
        · exact absurd hml hm
        · exact h3 l hl' hml

/-- On a failed fold, the reported line is a marker line of the input whose
decode failed with the reported message. -/
theorem processLines_error (decode : String → Except String CargoMessage) :
    ∀ (lines : List String) (b : CargoBuild) (pf : ParseFail)
      (ech : List String),
    processLines decode b lines = (.error pf, ech) →
    pf.line ∈ lines ∧ isMarkerLine pf.line = true ∧
      decode pf.line = .error pf.msg := by
  intro lines
  induction lines with
  | nil =>
    intro b pf ech h
    simp [processLines] at h
  | cons line rest ih =>
    intro b pf ech h
    by_cases hm : isMarkerLine line = true
    · rcases hd : decode line with msg | m
      · simp only [processLines, hm, if_true, hd, Prod.mk.injEq,
          Except.error.injEq] at h
        obtain ⟨hpf, -⟩ := h
        subst hpf
        exact ⟨List.mem_cons_self _ _, hm, hd⟩
      · simp only [processLines, hm, if_true, hd] at h
        obtain ⟨h1, h2, h3⟩ := ih (foldMessage b m) pf ech h
        exact ⟨List.mem_cons_of_mem _ h1, h2, h3⟩
    · have hstep : processLines decode b (line :: rest) =
          ((processLines decode b rest).1,
            line :: (processLines decode b rest).2) := by
        simp [processLines, hm]
      rw [hstep] at h
      simp only [Prod.mk.injEq] at h
      obtain ⟨hfst, -⟩ := h
      have hrest : processLines decode b rest =
          (.error pf, (processLines decode b rest).2) := by
        conv_lhs => rw [show processLines decode b rest =
          ((processLines decode b rest).1,
            (processLines decode b rest).2) from rfl]
        rw [hfst]
      obtain ⟨h1, h2, h3⟩ := ih b pf (processLines decode b rest).2 hrest
      exact ⟨List.mem_cons_of_mem _ h1, h2, h3⟩

/-- C4: for every captured stdout line of the build tool, a line beginning
with the structured-record marker either decodes and is folded into the
`CargoBuild` (artifact records keeping only `wasm`-extension filenames), or
its decode failure aborts the whole fold with a `ParseFail` naming that line
(no partial aggregate escapes, by the result type); a non-marker line is
echoed verbatim and contributes nothing to the aggregate. -/
theorem build_event_stream_policy (decode : String → Except String CargoMessage)
    (lines : List String) :
    (∀ b ech, execute_cargo_fold decode lines = (.ok b, ech) →
      ech = lines.filter (fun l => !(isMarkerLine l)) ∧
      execute_cargo_fold decode (lines.filter (fun l => isMarkerLine l)) =
        (.ok b, []) ∧
      (∀ l ∈ lines, isMarkerLine l = true → ∃ m, decode l = .ok m)) ∧
    (∀ pf ech, execute_cargo_fold decode lines = (.error pf, ech) →
      pf.line ∈ lines ∧ isMarkerLine pf.line = true ∧
        decode pf.line = .error pf.msg) ∧
    (∀ (b : CargoBuild) fns pid prof fresh,
      (foldMessage b (.compilerArtifact fns pid prof fresh)).wasms =
        b.wasms ++
          (fns.filter (fun f => pathExtension f == some "wasm")).map
            (fun f => (f, prof, fresh))) := by
  refine ⟨?_, ?_, ?_⟩
  · intro b ech h
    exact processLines_ok decode lines {} b ech h
  · intro pf ech h
    exact processLines_error decode lines {} pf ech h
  · intro b fns pid prof fresh
    simp only [foldMessage]
    split <;> rfl

/-- C4 witness: a stream with one passthrough line, one artifact record with
a `wasm` and a non-`wasm` filename, and one run record folds as described;
and a stream with a corrupt marker line fails naming that line. -/
theorem build_event_stream_policy_witness :
    (execute_cargo_fold
        (fun l => if l == "\x7bA" then
            .ok (.compilerArtifact ["t/a.wasm", "t/b.txt"] "p 1"
              ⟨"0", none, false⟩ true)
          else .error "bad json")
        ["hello", "\x7bA"]).2 = ["hello"] ∧
    (∀ l, l ∈ ["hello", "\x7bA"] → isMarkerLine l = true →
      ∃ m, (fun l => if l == "\x7bA" then
            (.ok (.compilerArtifact ["t/a.wasm", "t/b.txt"] "p 1"
              ⟨"0", none, false⟩ true) : Except String CargoMessage)
          else .error "bad json") l = .ok m) ∧
    (∀ (b : CargoBuild),
      (foldMessage b (.compilerArtifact ["t/a.wasm", "t/b.txt"] "p 1"
          ⟨"0", none, false⟩ true)).wasms =
        b.wasms ++ [("t/a.wasm", ⟨"0", none, false⟩, true)]) := by
  have h := build_event_stream_policy
    (fun l => if l == "\x7bA" then
        .ok (.compilerArtifact ["t/a.wasm", "t/b.txt"] "p 1"
          ⟨"0", none, false⟩ true)
      else .error "bad json")
    ["hello", "\x7bA"]
  have hok := h.1
    { wasms := [("t/a.wasm", ⟨"0", none, false⟩, true)] } ["hello"] (by decide)
  refine ⟨?_, hok.2.2, ?_⟩
  · decide
  · intro b
    have := h.2.2 b ["t/a.wasm", "t/b.txt"] "p 1" ⟨"0", none, false⟩ true
    rw [this]
    have hf : (["t/a.wasm", "t/b.txt"].filter
        (fun f => pathExtension f == some "wasm")) = ["t/a.wasm"] := by decide
    rw [hf]
    rfl

/-! ### Filesystem lemmas for the post-processing step -/

theorem fsLookup_cons (a : String) (bs : Bytes) (rest : FS) (q : String) :
    fsLookup ((a, bs) :: rest) q =
      if a = q then some bs else fsLookup rest q := by
  by_cases h : a = q
  · subst h
    simp [fsLookup, List.find?_cons]
  · simp [fsLookup, List.find?_cons, h]

theorem fsRemove_cons (a : String) (bs : Bytes) (rest : FS) (p : String) :
    fsRemove ((a, bs) :: rest) p =
      if a = p then fsRemove rest p else (a, bs) :: fsRemove rest p := by
  by_cases h : a = p <;> simp [fsRemove, List.filter_cons, h]

theorem fsLookup_remove_ne (fs : FS) (p q : String) (h : q ≠ p) :
    fsLookup (fsRemove fs p) q = fsLookup fs q := by
  induction fs with
  | nil => rfl
  | cons e rest ih =>
    obtain ⟨a, bs⟩ := e
    rw [fsRemove_cons]
    by_cases ha : a = p
    · subst ha
      rw [if_pos rfl, ih, fsLookup_cons, if_neg (fun hc => h hc.symm)]
    · rw [if_neg ha, fsLookup_cons, fsLookup_cons, ih]

theorem fsLookup_insert_self (fs : FS) (p : String) (c : Bytes) :
    fsLookup (fsInsert fs p c) p = some c := by
  rw [fsInsert, fsLookup_cons, if_pos rfl]

theorem fsLookup_insert_ne (fs : FS) (p q : String) (c : Bytes) (h : q ≠ p) :
    fsLookup (fsInsert fs p c) q = fsLookup fs q := by
  rw [fsInsert, fsLookup_cons, if_neg (fun hc => h hc.symm),
    fsLookup_remove_ne fs p q h]

/-- Inversion for the freshness-gated stage: either it skipped processing
(reuse), or it invoked `process` on the raw staged bytes. -/
theorem stage_fresh_check_ok (process : Bytes → Option Bytes) (fs2 : FS)
    (wasm : String) (fresh : Bool) (fs3 : FS) (invoked : Bool)
    (h : stage_fresh_check process fs2 wasm fresh = .ok (fs3, invoked)) :
    (fs3 = fs2 ∧ invoked = false) ∨
    (∃ raw ob, fsLookup fs2 (withExtension wasm "rustc.wasm") = some raw ∧
      process raw = some ob ∧
      fs3 = fsInsert fs2 (withExtension wasm "wasi.wasm") ob ∧
      invoked = true) := by
  unfold stage_fresh_check at h
  split at h
  · split at h
    · exact absurd h (by simp)
    · next raw hraw =>
      split at h
      · exact absurd h (by simp)
      · next ob hp =>
        simp only [Except.ok.injEq, Prod.mk.injEq] at h
        exact Or.inr ⟨raw, ob, hraw, hp, h.1.symm, h.2.symm⟩
  · simp only [Except.ok.injEq, Prod.mk.injEq] at h
    exact Or.inl ⟨h.1.symm, h.2.symm⟩

/-- Inversion for the link-back stage: on success the conventional path holds
the finalized staging file's bytes. -/
theorem stage_link_back_ok (fs3 : FS) (wasm : String) (invoked : Bool)
    (fs' : FS) (invoked' : Bool)
    (h : stage_link_back fs3 wasm invoked = .ok (fs', invoked')) :
    ∃ c, fsLookup (fsRemove fs3 wasm) (withExtension wasm "wasi.wasm") =
        some c ∧
      fs' = fsInsert (fsRemove fs3 wasm) wasm c ∧ invoked' = invoked := by
  unfold stage_link_back at h
  rcases hc : fsLookup (fsRemove fs3 wasm) (withExtension wasm "wasi.wasm")
      with _ | c
  · rw [hc] at h
    exact absurd h (by simp)
  · rw [hc] at h
    simp only [Except.ok.injEq, Prod.mk.injEq] at h
    exact ⟨c, rfl, h.1.symm, h.2.symm⟩

/-- C5: the conventional output path is moved aside to the raw-staging
(`*.rustc.wasm`) name unconditionally — on every successful run, whatever the
freshness flag, the staging file holds the original bytes; and on a freshness
hit with an existing finalized (`*.wasi.wasm`) file, that file's bytes are
carried forward unchanged to the conventional path and the processing
pipeline (demangler/optimizer) is not invoked. -/
theorem postprocess_staging_policy (process : Bytes → Option Bytes)
    (fs : FS) (wasm : String) (fresh : Bool)
    (hr : withExtension wasm "rustc.wasm" ≠ wasm)
    (hw : withExtension wasm "wasi.wasm" ≠ wasm)
    (hrw : withExtension wasm "wasi.wasm" ≠ withExtension wasm "rustc.wasm") :
    (∀ fs' invoked,
      postprocessArtifact process fs wasm fresh = .ok (fs', invoked) →
      fsLookup fs' (withExtension wasm "rustc.wasm") = fsLookup fs wasm) ∧
    (fresh = true →
      ∀ c, fsLookup fs (withExtension wasm "wasi.wasm") = some c →
      fsExists fs wasm = true →
      ∃ fs', postprocessArtifact process fs wasm fresh = .ok (fs', false) ∧
        fsLookup fs' wasm = some c) := by
  constructor
  · intro fs' invoked h
    rcases hlk : fsLookup fs wasm with _ | b0
    · have hlk1 : fsLookup (fsRemove fs (withExtension wasm "rustc.wasm"))
          wasm = none := by
        rw [fsLookup_remove_ne fs _ wasm (Ne.symm hr), hlk]
      simp only [postprocessArtifact, fsRename, hlk1] at h
      exact absurd h (by simp)
    · have hlk1 : fsLookup (fsRemove fs (withExtension wasm "rustc.wasm"))
          wasm = some b0 := by
        rw [fsLookup_remove_ne fs _ wasm (Ne.symm hr), hlk]
      simp only [postprocessArtifact, fsRename, hlk1] at h
      set fs2 : FS := fsInsert
        (fsRemove (fsRemove fs (withExtension wasm "rustc.wasm")) wasm)
        (withExtension wasm "rustc.wasm") b0 with hfs2
      have hl2 : fsLookup fs2 (withExtension wasm "rustc.wasm") = some b0 :=
        fsLookup_insert_self _ _ _
      rcases hsf : stage_fresh_check process fs2 wasm fresh with e | p3
      · rw [hsf] at h
        exact absurd h (by simp)
      · obtain ⟨fs3, inv3⟩ := p3
        rw [hsf] at h
        obtain ⟨c, hc, hfs', -⟩ :=
          stage_link_back_ok fs3 wasm inv3 fs' invoked h
        subst hfs'
        have hl3 : fsLookup fs3 (withExtension wasm "rustc.wasm") =
            some b0 := by
          rcases stage_fresh_check_ok process fs2 wasm fresh fs3 inv3 hsf with
            ⟨h3, -⟩ | ⟨raw, ob, -, -, h3, -⟩
          · rw [h3, hl2]
          · rw [h3, fsLookup_insert_ne _ _ _ _ (Ne.symm hrw), hl2]
        have hcalc : fsLookup (fsInsert (fsRemove fs3 wasm) wasm c)
            (withExtension wasm "rustc.wasm") = some b0 := by
          rw [fsLookup_insert_ne _ _ _ _ hr, fsLookup_remove_ne _ _ _ hr, hl3]
        rw [hcalc]
  · intro hfresh c hwi hex
    subst hfresh
    rw [fsExists] at hex
    rcases hlk : fsLookup fs wasm with _ | b0
    · rw [hlk] at hex
      simp at hex
    · have hlk1 : fsLookup (fsRemove fs (withExtension wasm "rustc.wasm"))
          wasm = some b0 := by
        rw [fsLookup_remove_ne fs _ wasm (Ne.symm hr), hlk]
      set fs2 : FS := fsInsert
        (fsRemove (fsRemove fs (withExtension wasm "rustc.wasm")) wasm)
        (withExtension wasm "rustc.wasm") b0 with hfs2
      have hl2 : fsLookup fs2 (withExtension wasm "wasi.wasm") = some c := by
        rw [hfs2, fsLookup_insert_ne _ _ _ _ hrw,
          fsLookup_remove_ne _ _ _ hw,
          fsLookup_remove_ne _ _ _ hrw, hwi]
      have hsf : stage_fresh_check process fs2 wasm true =
          .ok (fs2, false) := by
        unfold stage_fresh_check
        rw [fsExists, hl2]
        rfl
      have hl4 : fsLookup (fsRemove fs2 wasm)
          (withExtension wasm "wasi.wasm") = some c := by
        rw [fsLookup_remove_ne _ _ _ hw, hl2]
      have hlb : stage_link_back fs2 wasm false =
          .ok (fsInsert (fsRemove fs2 wasm) wasm c, false) := by
        unfold stage_link_back
        rw [hl4]
      refine ⟨fsInsert (fsRemove fs2 wasm) wasm c, ?_, ?_⟩
      · simp only [postprocessArtifact, fsRename, hlk1, ← hfs2, hsf, hlb]
      · exact fsLookup_insert_self _ _ _

/-- C5 witness: a fresh artifact with a previously finalized `*.wasi.wasm`
staging file is carried forward bit-for-bit without invoking the
processing pipeline. -/
theorem postprocess_staging_policy_witness :
    withExtension "t/foo.wasm" "rustc.wasm" ≠ "t/foo.wasm" ∧
    (∃ fs', postprocessArtifact (fun b => some b)
        [("t/foo.wasm", [1, 2, 3]), ("t/foo.wasi.wasm", [7, 7])]
        "t/foo.wasm" true = .ok (fs', false) ∧
      fsLookup fs' "t/foo.wasm" = some [7, 7]) := by
  have h := postprocess_staging_policy (fun b => some b)
    [("t/foo.wasm", [1, 2, 3]), ("t/foo.wasi.wasm", [7, 7])]
    "t/foo.wasm" true (by decide) (by decide) (by decide)
  exact ⟨by decide, h.2 rfl [7, 7] (by decide) (by decide)⟩

end CargoWasix
